import Mathlib

/-!
Verification of the client-side navigation engine of this repository.

All definitions below are shallow embeddings of the TypeScript source in
`src/unnamed/part_000`; line numbers in doc comments refer to that file.
External browser or platform builtins (the network, the history stack,
`encodeURIComponent`, `JSON.parse`) and repository utility modules that are
imported by the router but whose files are not part of this source snapshot
are modelled explicitly; each such definition carries a doc comment saying
what it stands for.
-/

set_option linter.unusedVariables false
set_option autoImplicit false

/-! ## Cancellation tokens (navigation state machine)

The router keeps at most one live cancellation closure in `router.clc`.
`getCancelledHandler` (lines 793-819) allocates a fresh mutable `cancelled`
flag, installs a closure setting it as `router.clc`, and returns a
`handleCancelled` continuation that throws a `cancelled`-marked error when
the flag was set in the meantime.  Starting a new transition invokes the
previous closure (lines 1305-1316).  We model each allocated flag closure by
a numeric token; `cancelledToks` is the set of tokens whose flag is set. -/

structure CancelSystem where
  /-- `router.clc`: the currently installed cancel closure, if any. -/
  clc : Option Nat
  /-- supply of fresh tokens. -/
  nextTok : Nat
  /-- tokens whose `cancelled` flag has been set. -/
  cancelledToks : List Nat
deriving Repr, DecidableEq

/-- Embeds token acquisition in `getCancelledHandler` (lines 800-803): a
fresh `cancelled` flag is allocated and its setter becomes `router.clc`. -/
def acquireToken (s : CancelSystem) : CancelSystem × Nat :=
  ({ s with clc := some s.nextTok, nextTok := s.nextTok + 1 }, s.nextTok)

/-- Embeds the supersede step of `change` (lines 1305-1316): when a new
transition starts while a previous one is in flight, the router runs
`this.clc()` — setting the `cancelled` flag of the previous transition —
and clears `this.clc`. -/
def supersede (s : CancelSystem) : CancelSystem :=
  match s.clc with
  | some t => { s with clc := none, cancelledToks := t :: s.cancelledToks }
  | none => s

/-- Embeds `handleCancelled` (lines 805-818): when an awaited operation of a
transition resumes, a set `cancelled` flag makes it throw an error carrying
`cancelled: true` (modelled as `Except.error ()`); otherwise the closure
uninstalls itself from `router.clc` if it is still the installed one. -/
def handleCancelled (s : CancelSystem) (tok : Nat) : Except Unit CancelSystem :=
  if tok ∈ s.cancelledToks then .error ()
  else if s.clc = some tok then .ok { s with clc := none }
  else .ok s

/-- The query map of a URL (`ParsedUrlQuery`): values are strings or string
arrays. -/
inductive QVal where
  | str (s : String)
  | strs (l : List String)
deriving Repr, DecidableEq

/-- An association list standing for a JS string-keyed record. -/
abbrev UrlQuery := List (String × QVal)

/-- JS property read `q[k]` (`undefined` becomes `none`). -/
def UrlQuery.lookup (q : UrlQuery) (k : String) : Option QVal :=
  List.lookup k q

/-- The `RouterState` snapshot owned by the engine (source lines 848-856). -/
structure RouterState where
  route : String
  pathname : String
  query : UrlQuery
  asPath : String
  locale : Option String
  isFallback : Bool
  isPreview : Bool
deriving Repr, DecidableEq

/-- An engine instance as needed for the cancellation claim: the
cancellation bookkeeping plus the shared state a superseded transition must
not mutate — the `RouterState` snapshot, the per-route `components` cache
(route name to cached info, abstracted to a number) and the number of
history entries written. -/
structure EngineInstance where
  cancel : CancelSystem
  state : RouterState
  components : List (String × Nat)
  historyLen : Nat
deriving Repr, DecidableEq

/-- Embeds the resumption of a navigation after its awaited data operation
completes: `getRouteInfo` calls `handleCancelled()` right after the awaited
middleware/data step (line 1946); a `cancelled` error thrown there is
rethrown unrecovered by `handleRouteInfoError` (lines 1810-1813), skips the
whole commit step of `change` (`changeState` at line 1678 and `set` at line
1721 never run), and is finally swallowed by the catch of `change` (lines
1755-1760), which resolves `false`.  Otherwise the transition commits by
applying `commit` and resolves `true`. -/
def resumeNavigation (e : EngineInstance) (tok : Nat)
    (commit : EngineInstance → EngineInstance) : EngineInstance × Bool :=
  match handleCancelled e.cancel tok with
  | .error _ => (e, false)
  | .ok c2 => (commit { e with cancel := c2 }, true)

/-! ## fetchRetry (data-fetch cache) -/

/-- A fetch `Response` as far as `fetchRetry` inspects it: the status code.
`ok` is derived as in the WHATWG fetch standard: status in 200..299. -/
structure FetchResponse where
  status : Nat
deriving Repr, DecidableEq

/-- `response.ok`: status in the range 200..299. -/
def FetchResponse.ok (r : FetchResponse) : Bool :=
  decide (200 ≤ r.status) && decide (r.status < 300)

/-- Embeds `fetchRetry` (lines 606-633).  The network is an oracle giving
the response to the k-th request issued.  Returns the response that the
promise resolves with, together with the number of requests issued.  Source
recursion: `!response.ok && attempts > 1 && response.status >= 500 ?
fetchRetry(url, attempts - 1, options) : response`. -/
def fetchRetry (oracle : Nat → FetchResponse) : Nat → Nat → FetchResponse × Nat
  | k, attempts =>
    let r := oracle k
    if h : !r.ok && attempts > 1 && decide (r.status ≥ 500) then
      let p := fetchRetry oracle (k + 1) (attempts - 1)
      (p.1, p.2 + 1)
    else
      (r, 1)
termination_by k attempts => attempts
decreasing_by
  simp only [Bool.and_eq_true, decide_eq_true_eq] at h
  omega

/-! ## fetchNextData inflight cache -/

/-- The shared data-fetch cache (`NextDataCache`, line 768-770, instance
`router.sdc` at line 829) together with the bookkeeping the cache claim
needs.  `entries` maps a cache key (the absolute data URL) to the identity
of the promise stored for it; `issued` lists the promises for which a
network request chain (`getData`, lines 676-747) was started. -/
structure DataCache where
  entries : List (String × Nat)
  nextProm : Nat
  issued : List Nat
deriving Repr, DecidableEq

/-- `inflightCache[cacheKey]` (`undefined` becomes `none`). -/
def DataCache.lookup (c : DataCache) (k : String) : Option Nat :=
  List.lookup k c.entries

/-- Embeds the synchronous dispatch of `fetchNextData` (lines 749-765).
With `unstable_skipClientCache && persistCache` a fresh request is issued
and the cache is left untouched for now (lines 753-758); otherwise an
existing entry is returned unchanged (lines 760-762), and only if there is
none is a fresh request issued and stored (lines 763-765).  Returns the
updated cache and the promise handed to the caller. -/
def fetchNextData (c : DataCache) (cacheKey : String)
    (skipClientCache persistCache : Bool) : DataCache × Nat :=
  if skipClientCache && persistCache then
    ({ c with nextProm := c.nextProm + 1, issued := c.nextProm :: c.issued },
      c.nextProm)
  else
    match c.lookup cacheKey with
    | some p => (c, p)
    | none =>
      ({ entries := (cacheKey, c.nextProm) :: c.entries,
         nextProm := c.nextProm + 1,
         issued := c.nextProm :: c.issued }, c.nextProm)

/-- Embeds the continuation of the skip-client-cache path (lines 754-757):
only after the fresh request resolves successfully is the shared entry
replaced (`inflightCache[cacheKey] = Promise.resolve(data)`). -/
def skipCacheResolve (c : DataCache) (cacheKey : String) (p : Nat) : DataCache :=
  { c with entries := (cacheKey, p) :: c.entries.filter (fun e => e.1 ≠ cacheKey) }

/-- `n` sequential callers (the suspension-point interleaving of N
concurrent callers on the single JS thread) invoking `fetchNextData` for
the same key with the normal flags (no cache bypass).  Returns the final
cache and the promises the callers received. -/
def fetchNextDataCalls (c : DataCache) (cacheKey : String) :
    Nat → DataCache × List Nat
  | 0 => (c, [])
  | n + 1 =>
    let r := fetchNextData c cacheKey false true
    let rest := fetchNextDataCalls r.1 cacheKey n
    (rest.1, r.2 :: rest.2)

/-- Well-formedness of the cache record: a JS object has at most one
property per key, i.e. the association-list keys are pairwise distinct. -/
def DataCache.wf (c : DataCache) : Prop :=
  (c.entries.map Prod.fst).Nodup

/-! ## Middleware effect computation -/

/-- The headers `getMiddlewareData` inspects (lines 353-462). Each field is
the result of `response.headers.get(...)`: `none` when absent. -/
structure MWHeaders where
  xNextjsRewrite : Option String
  xNextjsMatchedPath : Option String
  xMatchedPath : Option String
  xNextjsRedirect : Option String
deriving Repr, DecidableEq

/-- JS truthiness of a nullable string (`null` and the empty string are
falsy). -/
def jsTruthyS (s : Option String) : Bool :=
  match s with
  | none => false
  | some s => s ≠ ""

/-- JS `String.prototype.includes`. -/
def jsIncludes (s pat : String) : Bool :=
  (s.splitOn pat).length ≠ 1

/-- The effective rewrite target of `getMiddlewareData` (lines 353-369):
the `x-nextjs-rewrite` header, else the `x-nextjs-matched-path` header
(JS `||`), further replaced by the `x-matched-path` header when the latter
is present, no rewrite target was found so far, and it carries none of the
sentinel values `__next_data_catchall`, `/_error`, `/404`. -/
def mwRewriteTarget (h : MWHeaders) : Option String :=
  let rewriteTarget0 :=
    if jsTruthyS h.xNextjsRewrite then h.xNextjsRewrite else h.xNextjsMatchedPath
  match h.xMatchedPath with
  | some mp =>
    if mp ≠ "" && !jsTruthyS rewriteTarget0
        && !jsIncludes mp "__next_data_catchall"
        && !jsIncludes mp "/_error"
        && !jsIncludes mp "/404" then
      some mp
    else rewriteTarget0
  | none => rewriteTarget0

/-- The tags of the `MiddlewareEffect` union returned by
`getMiddlewareData` (the `type` field of the four `return` shapes at lines
441-445, 456-459, 473-477, 480-483, 486). -/
inductive MWEffectTag where
  | rewrite
  | redirectInternal
  | redirectExternal
  | next
deriving Repr, DecidableEq

/-- Embeds the effect selection of `getMiddlewareData` (lines 343-487) at
the level of the effect tag.  A truthy rewrite target starting with `/`
enters the rewrite-resolution branch whose only `return` carries
`type: rewrite` (lines 372-447); any other truthy rewrite target returns
`redirect-external` (lines 449-459).  Only when no rewrite target exists is
the `x-nextjs-redirect` header consulted: a target starting with `/`
returns `redirect-internal` (lines 465-478), any other truthy target
`redirect-external` (lines 480-483); absent both, `next` (line 486).  The
payloads of the effects (resolved href, query, destination) are computed
from the page list and rewrite table and are not part of the claims
settled here. -/
def getMiddlewareDataTag (h : MWHeaders) : MWEffectTag :=
  let rewriteTarget := mwRewriteTarget h
  if jsTruthyS rewriteTarget then
    if (rewriteTarget.getD "").startsWith "/" then .rewrite else .redirectExternal
  else
    let redirectTarget := h.xNextjsRedirect
    if jsTruthyS redirectTarget then
      if (redirectTarget.getD "").startsWith "/" then .redirectInternal
      else .redirectExternal
    else .next

/-! ## fetchNextData response processing and the not-found path -/

/-- A JSON value, for the parsed body of a data response. -/
inductive JsonVal where
  | jnull
  | jbool (b : Bool)
  | jnum (n : Int)
  | jstr (s : String)
  | jarr (l : List JsonVal)
  | jobj (fields : List (String × JsonVal))

/-- JS truthiness of a JSON value. -/
def jsTruthyJson : JsonVal → Bool
  | .jnull => false
  | .jbool b => b
  | .jnum n => n ≠ 0
  | .jstr s => s ≠ ""
  | .jarr _ => true
  | .jobj _ => true

/-- Property access on a parsed JSON value (`undefined` is `none`). -/
def JsonVal.getField : JsonVal → String → Option JsonVal
  | .jobj fields, k => List.lookup k fields
  | _, _ => none

/-- The optional-chained truthiness test
`tryToParseAsJSON(text)?.notFound` of line 702: `false` when parsing fails,
when the parsed value has no `notFound` property, or when that property is
falsy. -/
def parsedNotFound (parsed : Option JsonVal) : Bool :=
  match parsed with
  | none => false
  | some j =>
    match j.getField "notFound" with
    | none => false
    | some v => jsTruthyJson v

/-- The `json` field of a `FetchDataOutput` (lines 637-642): `null` when
parsing was not requested, the literal empty object (lines 683, 698), the
not-found marker object `notFound: SSG_DATA_NOT_FOUND` (lines 703-708,
with `SSG_DATA_NOT_FOUND` the unique symbol of line 604), or the result of
`tryToParseAsJSON(text)` (line 728). -/
inductive DataJson where
  | null
  | emptyObj
  | notFoundMarker
  | parsed (j : Option JsonVal)

/-- What `fetchNextData` resolves with (`FetchDataOutput` minus the raw
`Response` object). -/
structure FetchDataOutput where
  dataHref : String
  json : DataJson
  text : String

/-- The error thrown by the data-response handler: `Failed to load static
props`, optionally marked as an asset error (lines 712-723). -/
structure FetchDataError where
  message : String
  assetError : Bool

/-- A data response as inspected by `fetchNextData`: status and headers. -/
structure DataResponse where
  status : Nat
  headers : List (String × String)

/-- `response.ok`: status in the range 200..299. -/
def DataResponse.ok (r : DataResponse) : Bool :=
  decide (200 ≤ r.status) && decide (r.status < 300)

/-- Embeds the response-processing continuation of `fetchNextData.getData`
(lines 681-732).  `parse` stands for the `JSON.parse` builtin wrapped by
`tryToParseAsJSON` (lines 656-662, `none` when parsing throws); `isHead`
is whether the probe variant with `method: HEAD` was requested.  For a
non-ok response: middleware redirect statuses pass through with an empty
object (lines 694-699); a 404 without middleware whose body parses with a
truthy `notFound` resolves with the not-found marker instead of throwing
(lines 701-710); anything else throws `Failed to load static props`,
marked as an asset error unless this is a server render (lines 712-723).
An ok response resolves with the parsed body if parsing was requested
(lines 726-731). -/
def processDataResponse (parse : String → Option JsonVal)
    (hasMiddleware isServerRender parseJSON isHead : Bool)
    (dataHref : String) (response : DataResponse) (text : String) :
    Except FetchDataError FetchDataOutput :=
  if response.ok && isHead then
    .ok ⟨dataHref, .emptyObj, ""⟩
  else if !response.ok then
    if hasMiddleware && [301, 302, 307, 308].contains response.status then
      .ok ⟨dataHref, .emptyObj, text⟩
    else if !hasMiddleware && response.status = 404 && parsedNotFound (parse text) then
      .ok ⟨dataHref, .notFoundMarker, text⟩
    else
      .error ⟨"Failed to load static props", !isServerRender⟩
  else
    .ok ⟨dataHref, if parseJSON then .parsed (parse text) else .null, text⟩

/-- Embeds the not-found recovery of `change` (lines 1650-1658): when the
resolved props carry the not-found marker, the engine tries to load the
`/404` view and falls back to `/_error` when that load throws.
`load404Succeeds` is whether `fetchComponent(/404)` resolves. -/
def notFoundRouteFor (load404Succeeds : Bool) : String :=
  if load404Succeeds then "/404" else "/_error"

/-! ## History entries, changeState, onPopState -/

/-- The transition options stored in a history entry, as far as the history
claims inspect them. -/
structure TransOptions where
  shallow : Bool := false
  locale : Option String := none
deriving Repr, DecidableEq

/-- The browser history state object as typed at source lines 75-79:
`null`, an app-router entry (`__NA: true`), an explicitly foreign entry
(`__N: false`), or an entry of this engine (`__N: true` with `url`, `as`,
`options` and `key`). -/
inductive HistoryState where
  | null
  | appRouterEntry
  | notOurs
  | entry (url asStr : String) (options : TransOptions) (key : String)
deriving Repr, DecidableEq

/-- The two history methods (line 590). -/
inductive HistoryMethod where
  | pushState
  | replaceState
deriving Repr, DecidableEq

/-- The browser history as the engine mutates it: the stack of state
objects (current entry last; back/forward truncation is outside the
engine) and the current URL (`getURL()`). -/
structure BrowserHistory where
  stack : List HistoryState
  url : String
deriving Repr, DecidableEq

/-- Embeds `changeState` (lines 1763-1798).  Nothing happens for a
`pushState` whose target equals the current URL (guard at line 1781).
Otherwise the state object written always carries `__N: true` and a `key`:
the current `router._key` for `replaceState`, a fresh `createKey()` result
for `pushState` (line 1789); `freshKey` models that random token.  Returns
the new history and the new `router._key`. -/
def changeState (method : HistoryMethod) (url asStr : String)
    (options : TransOptions) (curKey freshKey : String)
    (h : BrowserHistory) : BrowserHistory × String :=
  if method = .pushState && h.url = asStr then (h, curKey)
  else
    let key := match method with
      | .pushState => freshKey
      | .replaceState => curKey
    let e := HistoryState.entry url asStr options key
    match method with
    | .pushState => (⟨h.stack ++ [e], asStr⟩, key)
    | .replaceState => (⟨h.stack.dropLast ++ [e], asStr⟩, key)

/-- What `onPopState` decides to do with an incoming history state. -/
inductive PopAction where
  /-- replace the history state from the current in-memory router state
  without navigating (lines 1025-1042). -/
  | syncReplace
  /-- `window.location.reload()` (lines 1045-1048). -/
  | reload
  /-- return without doing anything. -/
  | ignore
  /-- client navigation: `this.change(replaceState, url, as, options)`
  (lines 1106-1117). -/
  | navigate (url asStr : String) (options : TransOptions) (key : String)
deriving Repr, DecidableEq

/-- Embeds the dispatch of `onPopState` (lines 1019-1118).  A `null` state
resynchronizes the entry from memory (lines 1025-1042); an entry with the
foreign `__NA` marker forces a full reload (lines 1044-1048); an entry
without the engine marker `__N` is ignored (lines 1050-1052).  For an
engine entry, the remaining guards — the Safari reopen check (lines
1054-1061), the initial-load echo check (lines 1090-1098, summarized by
`isInitialSsrEcho`) and the `beforePopState` veto (lines 1100-1104,
`bpsAllows`) — may still ignore it; otherwise it is processed as a client
navigation via `change(replaceState, ...)`. -/
def onPopStateAction (state : HistoryState) (isFirstPopStateEvent : Bool)
    (curLocale : Option String) (curAsPath : String)
    (isInitialSsrEcho : Bool) (bpsAllows : Bool) : PopAction :=
  match state with
  | .null => .syncReplace
  | .appRouterEntry => .reload
  | .notOurs => .ignore
  | .entry url asStr options key =>
    if isFirstPopStateEvent && decide (curLocale = options.locale)
        && asStr = curAsPath then
      .ignore
    else if isInitialSsrEcho then .ignore
    else if !bpsAllows then .ignore
    else .navigate url asStr options key

/-! ## The commit step of change -/

/-- A scroll position. -/
structure ScrollPos where
  x : Int
  y : Int
deriving Repr, DecidableEq

/-- Modelled from the spec: `compareRouterStates` (imported at source line
49; its file is not part of this snapshot) — "If nothing observable changed
(same computed state ...)": equality of the two router-state snapshots. -/
def compareRouterStates (a b : RouterState) : Bool :=
  decide (a = b)

/-- A router instance as the commit step mutates it: the current state
snapshot. `Router.set` (lines 2127-2139) assigns the state and invokes the
subscriber. -/
structure RouterInstance where
  state : RouterState
deriving Repr, DecidableEq

/-- Embeds `Router.set` (lines 2127-2139): replace the state snapshot
wholesale, then publish to the subscriber. -/
def routerSet (r : RouterInstance) (st : RouterState) : RouterInstance :=
  { r with state := st }

/-- Embeds the commit step of `change` (lines 1691-1752): compute
`shouldScroll` (line 1695-1696: `options.scroll ?? (!_h &&
!isValidShallowRoute)`), `resetScroll`, the `upcomingRouterState` (lines
1700-1707) and `upcomingScrollState` (line 1708), then skip the whole
`set`/publish step exactly when this is a background query update with no
scroll to perform, no ready-state transition, no locale change and an
unchanged computed state (lines 1713-1720); otherwise assign and publish.
Returns the router and whether the subscriber-publish step ran. -/
def commitStep (r : RouterInstance) (nextState : RouterState)
    (route pathname : String) (query : UrlQuery) (cleanedAs : String)
    (isQueryUpdating readyStateChange localeChange isValidShallowRoute : Bool)
    (optionsScroll : Option Bool) (forcedScroll : Option ScrollPos) :
    RouterInstance × Bool :=
  let shouldScroll := optionsScroll.getD (!isQueryUpdating && !isValidShallowRoute)
  let resetScroll : Option ScrollPos := if shouldScroll then some ⟨0, 0⟩ else none
  let upcomingRouterState : RouterState :=
    { nextState with
      route := route, pathname := pathname, query := query,
      asPath := cleanedAs, isFallback := false }
  let upcomingScrollState := forcedScroll.orElse (fun _ => resetScroll)
  let canSkipUpdating := isQueryUpdating && upcomingScrollState.isNone
      && !readyStateChange && !localeChange
      && compareRouterStates upcomingRouterState r.state
  if canSkipUpdating then (r, false)
  else (routerSet r upcomingRouterState, true)

/-! ## Same-URL push demotion -/

/-- Embeds `urlIsNew` (lines 2196-2198): the target `asPath` differs from
the current one. -/
def urlIsNew (curAsPath asPath : String) : Bool :=
  curAsPath ≠ asPath

/-- Embeds the method demotion of `change` (lines 1380-1387): a navigation
whose cleaned `as` equals the current `asPath` with an unchanged locale
must not add a history entry, so the method is forced to `replaceState`. -/
def demoteMethod (method : HistoryMethod) (curAsPath cleanedAs : String)
    (localeChange : Bool) : HistoryMethod :=
  if !urlIsNew curAsPath cleanedAs && !localeChange then .replaceState else method

/-! ## Dynamic-route resolution -/

/-- Splitting a character list on `/` (the behavior of `splitOn` with the
`/` separator, at the character level so that closed statements can be
evaluated by the kernel). -/
def splitOnSlash : List Char → List (List Char)
  | [] => [[]]
  | c :: rest =>
    let r := splitOnSlash rest
    if c = '/' then [] :: r
    else (c :: r.headD []) :: r.tail

/-- Modelled from the spec: the `removeTrailingSlash` utility (imported at
source line 11; its file is not part of this snapshot) — "trailing slash
stripped": removes a single trailing `/`, giving `/` when nothing is
left. -/
def removeTrailingSlash (route : String) : String :=
  let stripped :=
    if route.data.getLast? = some '/' then String.mk route.data.dropLast
    else route
  if stripped = "" then "/" else stripped

/-- Modelled from the spec: the `isDynamicRoute` utility (imported at
source line 33; file not in this snapshot) — whether some `/`-separated
segment of the route is a `[...]` placeholder. -/
def isDynamicRoute (route : String) : Bool :=
  (splitOnSlash route.data).any fun seg =>
    seg.headD ' ' = '[' && seg.getLastD ' ' = ']' && decide (seg.length ≥ 3)

/-- Modelled from the spec: the `denormalizePagePath` utility (imported at
source line 19; file not in this snapshot) — "denormalized" page path:
`/index` stands for `/`, and a leading `/index/` prefix is dropped for
non-dynamic paths. -/
def denormalizePagePath (page : String) : String :=
  if "/index/".data.isPrefixOf page.data && !isDynamicRoute page then
    String.mk (page.data.drop 6)
  else if page = "/index" then "/"
  else page

/-- Embeds `resolveDynamicRoute` (lines 324-341).  `isDyn` and `reTest`
stand for the imported `isDynamicRoute` and `getRouteRegex(page).re.test`
utilities (their files are not in this snapshot; the theorems below hold
for every instantiation, and concrete modelled instances are used for the
closed statements).  The `pages.some` loop of lines 333-338 assigns to
`pathname` the first page that is dynamic and whose compiled pattern
matches the cleaned pathname. -/
def resolveDynamicRoute (isDyn : String → Bool) (reTest : String → String → Bool)
    (denorm : String → String) (pathname : String) (pages : List String) :
    String :=
  let cleanPathname := removeTrailingSlash (denorm pathname)
  if cleanPathname = "/404" || cleanPathname = "/_error" then pathname
  else
    let pathname1 :=
      if pages.contains cleanPathname then pathname
      else
        match pages.find? (fun page => isDyn page && reTest page cleanPathname) with
        | some page => page
        | none => pathname
    removeTrailingSlash pathname1

/-! ## Percent-encoding (encodeURIComponent / decodeURIComponent)

These are the ECMAScript builtins used by `interpolateAs` (lines 198, 201)
and by the route matcher; they are not repository code, so they are
modelled here: unreserved characters pass through, every other character is
percent-encoded per UTF-8 byte, and decoding reverses this. -/

/-- The unreserved characters of `encodeURIComponent` (ECMA-262
`uriUnescaped`): ASCII letters and digits and `- _ . ! ~ * ( )` and the
apostrophe (code 39). -/
def uriUnreserved (c : Char) : Bool :=
  c.isAlphanum || c ∈ ['-', '_', '.', '!', '~', '*', Char.ofNat 39, '(', ')']

/-- Upper-case hexadecimal digit of `n < 16`. -/
def hexDigit (n : Nat) : Char :=
  if n < 10 then Char.ofNat (48 + n) else Char.ofNat (55 + n)

/-- Value of a hexadecimal digit character (0 for other characters). -/
def hexVal (c : Char) : Nat :=
  if 48 ≤ c.toNat && c.toNat ≤ 57 then c.toNat - 48
  else if 65 ≤ c.toNat && c.toNat ≤ 70 then c.toNat - 55
  else if 97 ≤ c.toNat && c.toNat ≤ 102 then c.toNat - 87
  else 0

/-- UTF-8 encoding of a Unicode scalar value. -/
def utf8Enc (n : Nat) : List Nat :=
  if n < 0x80 then [n]
  else if n < 0x800 then [0xC0 + n / 64, 0x80 + n % 64]
  else if n < 0x10000 then [0xE0 + n / 4096, 0x80 + n / 64 % 64, 0x80 + n % 64]
  else [0xF0 + n / 0x40000, 0x80 + n / 4096 % 64, 0x80 + n / 64 % 64,
        0x80 + n % 64]

/-- The `%XY` escape of one byte. -/
def percentTriple (b : Nat) : List Char :=
  ['%', hexDigit (b / 16), hexDigit (b % 16)]

/-- The encoding of one character: unreserved characters pass through, all
others are percent-encoded per UTF-8 byte. -/
def encChar (c : Char) : List Char :=
  if uriUnreserved c then [c] else (utf8Enc c.toNat).flatMap percentTriple

/-- The `encodeURIComponent` builtin. -/
def encodeURIComponent (s : String) : String :=
  String.mk (s.toList.flatMap encChar)

/-- Lexing step of the decoder: a `%` followed by two characters denotes a
byte, anything else stands for itself. -/
inductive UriToken where
  | lit (c : Char)
  | byte (b : Nat)
deriving Repr, DecidableEq

/-- Tokenize a character list: each `%XY` escape becomes a byte token. -/
def uriTokens : List Char → List UriToken
  | [] => []
  | '%' :: a :: b :: rest => .byte (hexVal a * 16 + hexVal b) :: uriTokens rest
  | c :: rest => .lit c :: uriTokens rest

/-- The Unicode replacement character, standing for the `URIError` the
builtin would throw on a malformed escape sequence (never reached on the
output of `encodeURIComponent`). -/
def replacementChar : Char := Char.ofNat 0xFFFD

mutual

/-- UTF-8 decoding over the token stream: literal characters pass through,
byte tokens are grouped into UTF-8 sequences (the lead byte selects how
many continuation bytes follow).  A malformed sequence aborts with the
replacement character, standing for the `URIError` thrown by the builtin
(never reached on the output of `encodeURIComponent`). -/
def utf8DecodeTokens : List UriToken → List Char
  | [] => []
  | .lit c :: rest => c :: utf8DecodeTokens rest
  | .byte b0 :: rest =>
    if b0 < 0x80 then Char.ofNat b0 :: utf8DecodeTokens rest
    else if b0 < 0xE0 then utf8Cont1 b0 rest
    else if b0 < 0xF0 then utf8Cont2 b0 rest
    else utf8Cont3 b0 rest
termination_by l => l.length

/-- Reads the continuation byte of a 2-byte UTF-8 sequence. -/
def utf8Cont1 (b0 : Nat) : List UriToken → List Char
  | .byte b1 :: rest =>
    Char.ofNat ((b0 - 0xC0) * 64 + (b1 - 0x80)) :: utf8DecodeTokens rest
  | _ => [replacementChar]
termination_by l => l.length

/-- Reads the continuation bytes of a 3-byte UTF-8 sequence. -/
def utf8Cont2 (b0 : Nat) : List UriToken → List Char
  | .byte b1 :: .byte b2 :: rest =>
    Char.ofNat ((b0 - 0xE0) * 4096 + (b1 - 0x80) * 64 + (b2 - 0x80)) ::
      utf8DecodeTokens rest
  | _ => [replacementChar]
termination_by l => l.length

/-- Reads the continuation bytes of a 4-byte UTF-8 sequence. -/
def utf8Cont3 (b0 : Nat) : List UriToken → List Char
  | .byte b1 :: .byte b2 :: .byte b3 :: rest =>
    Char.ofNat ((b0 - 0xF0) * 0x40000 + (b1 - 0x80) * 4096 +
      (b2 - 0x80) * 64 + (b3 - 0x80)) :: utf8DecodeTokens rest
  | _ => [replacementChar]
termination_by l => l.length

end

/-- The `decodeURIComponent` builtin (on well-formed input). -/
def decodeURIComponent (s : String) : String :=
  String.mk (utf8DecodeTokens (uriTokens s.toList))

/-! ## Dynamic-route patterns, interpolation, matching

Route patterns and paths are handled as their lists of `/`-separated
segments: the string form is `/` followed by the segments joined with `/`.
A route segment is either static text or a placeholder `[name]`,
`[...name]` (catch-all) or `[[...name]]` (optional catch-all). -/

/-- One segment of a dynamic-route pattern. -/
inductive RouteSeg where
  | static (s : String)
  | param (name : String) (rep : Bool) (opt : Bool)
deriving Repr, DecidableEq

/-- The placeholder names of a route pattern in order
(`Object.keys(dynamicRegex.groups)`, line 170). -/
def routeParams (segs : List RouteSeg) : List String :=
  segs.filterMap fun seg =>
    match seg with
    | .static _ => none
    | .param name _ _ => some name

/-- The text a capture group matched, for a capture given as its segment
list: the segments joined with `/`. -/
def segsText : List String → String
  | [] => ""
  | [s] => s
  | s :: rest => s ++ "/" ++ segsText rest

/-- The substitution `interpolateAs` performs for one route segment (the
`every` callback of lines 172-204), giving the segments this route segment
contributes to the interpolated path; `none` is the failure of the
presence check `optional || param in dynamicMatches` (line 186) for a
non-optional placeholder.  A missing or falsy value reads as the empty
string (line 174); an optional placeholder with a falsy value swallows its
leading slash (line 181), contributing no segments; a repeated
placeholder's value is wrapped into an array if necessary (line 183),
percent-encoded per segment and joined with slashes (lines 192-200), an
empty join still filling the placeholder's single slot; a plain value is
percent-encoded (line 201; a string array passed for a plain placeholder
is coerced to its comma-joined string form, as `encodeURIComponent`
does). -/
def segSubst (q : UrlQuery) : RouteSeg → Option (List String)
  | .static s => some [s]
  | .param name rep opt =>
    let raw := UrlQuery.lookup q name
    if !opt && raw.isNone then none
    else if opt && (decide (raw = none) || decide (raw = some (.str ""))) then
      some []
    else if rep then
      let value : List String :=
        match raw with
        | none => [""]
        | some (.str s) => [s]
        | some (.strs l) => l
      let encs := value.map encodeURIComponent
      some (if encs.isEmpty then [""] else encs)
    else
      let s :=
        match raw with
        | none => ""
        | some (.str s) => s
        | some (.strs l) => String.intercalate "," l
      some [encodeURIComponent s]

/-- What `interpolateAs` returns (lines 211-214): the placeholder names
and the interpolated path, the latter as a segment list with `none`
standing for the empty-string failure result of line 206. -/
structure InterpolateResult where
  params : List String
  result : Option (List String)
deriving Repr, DecidableEq

/-- Embeds `interpolateAs` (lines 153-215) in the configuration it is
invoked in (`asPathname = route`: see lines 273-277 and 1479-1482, where
interpolation is attempted only when the route equals the as-pathname), so
the placeholder values are read from the query (lines 162-167).  The route
is embedded as its parsed segment list and the interpolated path returned
as a segment list. -/
def interpolateAs (segs : List RouteSeg) (q : UrlQuery) : InterpolateResult :=
  { params := routeParams segs
    result := (segs.mapM (segSubst q)).map List.flatten }

/-- The candidate splits for a catch-all capture: the capture takes `k + 1`
leading segments, shortest first (the compiled group is lazy). -/
def pathSplits (ss : List String) : List (List String × List String) :=
  (List.range ss.length).map fun k => (ss.take (k + 1), ss.drop (k + 1))

/-- Modelled from the spec: the compiled route pattern and its matcher
(`getRouteRegex` and `getRouteMatcher`, imported at source lines 37-38;
their files are not in this snapshot) — "compile a dynamic-route pattern
to a matcher/regex pair".  Matches a path, given as its segment list,
against a route pattern: a static segment matches itself; a plain
placeholder matches exactly one nonempty segment; a catch-all matches one
or more segments with nonempty total text, shortest capture first (the
group is lazy); an optional catch-all may instead match nothing, its key
then being omitted from the result.  Captured values are URI-decoded,
catch-all captures per segment. -/
def routeMatch : List RouteSeg → List String → Option UrlQuery
  | [], ss => if ss.isEmpty then some [] else none
  | .static s :: rs, ss =>
    match ss with
    | [] => none
    | seg :: ss2 => if seg = s then routeMatch rs ss2 else none
  | .param name false _ :: rs, ss =>
    match ss with
    | [] => none
    | seg :: ss2 =>
      if seg ≠ "" then
        (routeMatch rs ss2).map ((name, .str (decodeURIComponent seg)) :: ·)
      else none
  | .param name true opt :: rs, ss =>
    let capture := (pathSplits ss).findSome? fun split =>
      if segsText split.1 ≠ "" then
        (routeMatch rs split.2).map
          ((name, .strs (split.1.map decodeURIComponent)) :: ·)
      else none
    if opt then capture.orElse (fun _ => routeMatch rs ss) else capture

/-- Parse one textual route segment into a `RouteSeg`. -/
def parseRouteSeg (seg : List Char) : RouteSeg :=
  if "[[...".data.isPrefixOf seg && "]]".data.isSuffixOf seg then
    .param (String.mk ((seg.drop 5).dropLast.dropLast)) true true
  else if "[...".data.isPrefixOf seg && "]".data.isSuffixOf seg then
    .param (String.mk ((seg.drop 4).dropLast)) true false
  else if "[".data.isPrefixOf seg && "]".data.isSuffixOf seg then
    .param (String.mk ((seg.drop 1).dropLast)) false false
  else .static (String.mk seg)

/-- Parse a route-pattern string (starting with `/`) into its segments. -/
def parseRoute (route : String) : List RouteSeg :=
  ((splitOnSlash route.data).drop 1).map parseRouteSeg

/-- The segment list of a path string (starting with `/`). -/
def pathSegments (p : String) : List String :=
  ((splitOnSlash p.data).map String.mk).drop 1

/-- Concrete modelled instance of `getRouteRegex(page).re.test(pathname)`
for the closed statements about `resolveDynamicRoute`. -/
def getRouteRegexTest (page pathname : String) : Bool :=
  (routeMatch (parseRoute page) (pathSegments pathname)).isSome

/-- A plain route segment: static text or a non-catch-all, non-optional
placeholder. -/
def plainSeg : RouteSeg → Bool
  | .static _ => true
  | .param _ rep opt => !rep && !opt

/-- The shape of a valid dynamic-route pattern: a catch-all (and an
optional placeholder, which is always a catch-all) may appear only as the
final segment. -/
def validShape : List RouteSeg → Bool
  | [] => true
  | [.param _ rep opt] => rep || !opt
  | [.static _] => true
  | seg :: rest => plainSeg seg && validShape rest

/-- A well-kinded, nonempty placeholder value: a nonempty string for a
plain placeholder, a nonempty list of nonempty strings for a catch-all. -/
def kindOk (rep : Bool) : QVal → Bool
  | .str s => !rep && !(s = "")
  | .strs l => rep && !l.isEmpty && l.all (fun s => !(s = ""))

/-- The query supplies a usable value for a route segment: any value state
for static text; for a placeholder, a well-kinded nonempty value — an
optional placeholder may instead be absent or have the falsy empty-string
value. -/
def suppliedOk (q : UrlQuery) : RouteSeg → Bool
  | .static _ => true
  | .param name rep opt =>
    match UrlQuery.lookup q name with
    | none => opt
    | some (.str "") => opt
    | some v => kindOk rep v

/-! # Theorems

Helper lemmas first, then one theorem per claim (with witnesses and
counterexamples where required). -/

/-! ## Percent-encoding roundtrip -/

theorem char_toNat_lt (c : Char) : c.toNat < 1114112 := by
  rcases c with ⟨v, hv⟩
  rcases hv with h | ⟨h1, h2⟩
  · have h3 : v.toNat < (55296 : UInt32).toNat := h
    have h4 : (55296 : UInt32).toNat = 55296 := rfl
    simp only [Char.toNat]
    omega
  · have h3 : v.toNat < (1114112 : UInt32).toNat := h2
    have h4 : (1114112 : UInt32).toNat = 1114112 := rfl
    simp only [Char.toNat]
    omega

theorem hexVal_hexDigit : ∀ n < 16, hexVal (hexDigit n) = n := by decide

theorem utf8Enc_lt_256 {n : Nat} (h : n < 1114112) :
    ∀ b ∈ utf8Enc n, b < 256 := by
  intro b hb
  unfold utf8Enc at hb
  split at hb
  · simp only [List.mem_singleton] at hb; omega
  · split at hb
    · simp only [List.mem_cons, List.not_mem_nil, or_false] at hb
      rcases hb with h1 | h1 <;> omega
    · split at hb
      · simp only [List.mem_cons, List.not_mem_nil, or_false] at hb
        rcases hb with h1 | h1 | h1 <;> omega
      · simp only [List.mem_cons, List.not_mem_nil, or_false] at hb
        rcases hb with h1 | h1 | h1 | h1 <;> omega

theorem uriTokens_percentTriple {b : Nat} (hb : b < 256) (rest : List Char) :
    uriTokens (percentTriple b ++ rest) = .byte b :: uriTokens rest := by
  have hd : b / 16 < 16 := by omega
  have hm : b % 16 < 16 := by omega
  simp only [percentTriple, List.cons_append, List.nil_append, uriTokens,
    hexVal_hexDigit _ hd, hexVal_hexDigit _ hm]
  congr 1
  congr 1
  omega

theorem uriTokens_lit {c : Char} (h : c ≠ '%') (rest : List Char) :
    uriTokens (c :: rest) = .lit c :: uriTokens rest := by
  rw [uriTokens.eq_def]
  split
  · simp_all
  · rename_i heq
    injection heq with h1 h2
    exact absurd h1 h
  · rename_i heq
    injection heq with h1 h2
    subst h1; subst h2
    rfl

theorem uriTokens_bytes {bs : List Nat} (hbs : ∀ b ∈ bs, b < 256)
    (rest : List Char) :
    uriTokens (bs.flatMap percentTriple ++ rest) =
      bs.map UriToken.byte ++ uriTokens rest := by
  induction bs with
  | nil => simp
  | cons b bs ih =>
    simp only [List.flatMap_cons, List.append_assoc, List.map_cons,
      List.cons_append]
    rw [uriTokens_percentTriple (hbs b (by simp)), ih (fun x hx => hbs x (by simp [hx]))]

theorem utf8DecodeTokens_enc {n : Nat} (hn : n < 1114112)
    (ts : List UriToken) :
    utf8DecodeTokens ((utf8Enc n).map UriToken.byte ++ ts) =
      Char.ofNat n :: utf8DecodeTokens ts := by
  unfold utf8Enc
  split
  · rename_i h1
    simp only [List.map_cons, List.map_nil, List.cons_append, List.nil_append]
    rw [utf8DecodeTokens]
    simp only [if_pos h1]
  · rename_i h1
    split
    · rename_i h2
      simp only [List.map_cons, List.map_nil, List.cons_append, List.nil_append]
      rw [utf8DecodeTokens]
      have hz1 : ¬(192 + n / 64 < 128) := by omega
      have hz2 : 192 + n / 64 < 224 := by omega
      have e : (192 + n / 64 - 192) * 64 + (128 + n % 64 - 128) = n := by omega
      simp only [if_neg hz1, if_pos hz2, utf8Cont1, e]
    · rename_i h2
      split
      · rename_i h3
        simp only [List.map_cons, List.map_nil, List.cons_append,
          List.nil_append]
        rw [utf8DecodeTokens]
        have hz1 : ¬(224 + n / 4096 < 128) := by omega
        have hz2 : ¬(224 + n / 4096 < 224) := by omega
        have hz3 : 224 + n / 4096 < 240 := by omega
        have e : (224 + n / 4096 - 224) * 4096 + (128 + n / 64 % 64 - 128) * 64 +
            (128 + n % 64 - 128) = n := by omega
        simp only [if_neg hz1, if_neg hz2, if_pos hz3, utf8Cont2, e]
      · rename_i h3
        simp only [List.map_cons, List.map_nil, List.cons_append,
          List.nil_append]
        rw [utf8DecodeTokens]
        have hz1 : ¬(240 + n / 262144 < 128) := by omega
        have hz2 : ¬(240 + n / 262144 < 224) := by omega
        have hz3 : ¬(240 + n / 262144 < 240) := by omega
        have e : (240 + n / 262144 - 240) * 262144 + (128 + n / 4096 % 64 - 128) * 4096 +
            (128 + n / 64 % 64 - 128) * 64 + (128 + n % 64 - 128) = n := by omega
        simp only [if_neg hz1, if_neg hz2, if_neg hz3, utf8Cont3, e]

theorem decode_encode_list (cs : List Char) :
    utf8DecodeTokens (uriTokens (cs.flatMap encChar)) = cs := by
  induction cs with
  | nil => simp [uriTokens, utf8DecodeTokens]
  | cons c cs ih =>
    simp only [List.flatMap_cons]
    by_cases hu : uriUnreserved c
    · have hc : c ≠ '%' := by
        intro h
        subst h
        exact absurd hu (by decide)
      simp only [encChar, if_pos hu, List.cons_append, List.nil_append]
      rw [uriTokens_lit hc, utf8DecodeTokens, ih]
    · simp only [encChar, if_neg hu]
      rw [uriTokens_bytes (utf8Enc_lt_256 (char_toNat_lt c)),
        utf8DecodeTokens_enc (char_toNat_lt c), Char.ofNat_toNat, ih]

theorem decodeURIComponent_encodeURIComponent (s : String) :
    decodeURIComponent (encodeURIComponent s) = s := by
  cases s with
  | mk data =>
    show String.mk (utf8DecodeTokens (uriTokens ((String.mk data).toList.flatMap encChar))) = String.mk data
    rw [show (String.mk data).toList = data from rfl, decode_encode_list]

theorem encChar_ne_nil (c : Char) : encChar c ≠ [] := by
  unfold encChar
  split
  · simp
  · unfold utf8Enc percentTriple
    split
    · simp
    · split
      · simp
      · split <;> simp

theorem encodeURIComponent_ne_empty {s : String} (h : s ≠ "") :
    encodeURIComponent s ≠ "" := by
  cases s with
  | mk data =>
    cases data with
    | nil => exact absurd rfl h
    | cons c rest =>
      show String.mk ((c :: rest).flatMap encChar) ≠ String.mk []
      intro hmk
      have hdata : (c :: rest).flatMap encChar = [] := by
        injection hmk
      rw [List.flatMap_cons] at hdata
      exact encChar_ne_nil c (List.append_eq_nil.mp hdata).1

/-! ## Route interpolation / matching helper lemmas -/

theorem string_length_zero {s : String} (h : s.length = 0) : s = "" := by
  cases s with
  | mk data =>
    rw [String.ext_iff]
    show data = []
    have h2 : data.length = 0 := h
    exact List.length_eq_zero.mp h2

theorem segsText_cons_ne {a : String} (ha : a ≠ "") (t : List String) :
    segsText (a :: t) ≠ "" := by
  cases t with
  | nil => simpa [segsText] using ha
  | cons b t2 =>
    show a ++ "/" ++ segsText (b :: t2) ≠ ""
    intro h
    have h2 := congrArg String.length h
    simp only [String.length_append] at h2
    have h3 : ("/" : String).length = 1 := rfl
    have h4 : ("" : String).length = 0 := rfl
    have h5 : a.length = 0 := by omega
    exact ha (string_length_zero h5)

theorem routeMatch_nil_ne {ss : List String} (h : ss ≠ []) :
    routeMatch [] ss = none := by
  cases ss with
  | nil => exact absurd rfl h
  | cons a t => rfl

theorem findSome_pathSplits_full (name : String) (ss : List String)
    (hne : ss ≠ []) (hseg : ∀ s ∈ ss, s ≠ "") :
    ((pathSplits ss).findSome? fun split =>
      if segsText split.1 ≠ "" then
        (routeMatch [] split.2).map
          ((name, QVal.strs (split.1.map decodeURIComponent)) :: ·)
      else none) = some [(name, QVal.strs (ss.map decodeURIComponent))] := by
  obtain ⟨m, hm⟩ : ∃ m, ss.length = m + 1 := by
    cases ss with
    | nil => exact absurd rfl hne
    | cons a t => exact ⟨t.length, rfl⟩
  unfold pathSplits
  rw [List.findSome?_map, hm, List.range_succ, List.findSome?_append]
  apply Option.or_eq_some.mpr
  right
  constructor
  · rw [List.findSome?_eq_none_iff]
    intro k hk
    simp only [List.mem_range] at hk
    simp only [Function.comp_apply]
    have hdrop : ss.drop (k + 1) ≠ [] := by
      rw [Ne, List.drop_eq_nil_iff]
      omega
    rw [routeMatch_nil_ne hdrop]
    simp
  · simp only [List.findSome?_cons, List.findSome?_nil, Function.comp_apply]
    have htake : ss.take (m + 1) = ss := by
      rw [← hm]
      exact List.take_length ss
    have hdrop : ss.drop (m + 1) = [] := by
      rw [← hm]
      simp
    rw [htake, hdrop]
    obtain ⟨a, t, rfl⟩ : ∃ a t, ss = a :: t := by
      cases ss with
      | nil => exact absurd rfl hne
      | cons a t => exact ⟨a, t, rfl⟩
    rw [if_pos (segsText_cons_ne (hseg a (by simp)) t)]
    rfl

theorem routeMatch_catchall (name : String) (opt : Bool) (ss : List String)
    (hne : ss ≠ []) (hseg : ∀ s ∈ ss, s ≠ "") :
    routeMatch [.param name true opt] ss =
      some [(name, QVal.strs (ss.map decodeURIComponent))] := by
  show (let capture := (pathSplits ss).findSome? _
        if opt then capture.orElse (fun _ => routeMatch [] ss) else capture) = _
  rw [findSome_pathSplits_full name ss hne hseg]
  cases opt <;> simp

theorem suppliedOk_param {q : UrlQuery} {name : String} {rep opt : Bool}
    (h : suppliedOk q (.param name rep opt) = true) :
    (UrlQuery.lookup q name = none ∧ opt = true) ∨
    (UrlQuery.lookup q name = some (.str "") ∧ opt = true) ∨
    (∃ s, UrlQuery.lookup q name = some (.str s) ∧ s ≠ "" ∧ rep = false) ∨
    (∃ l, UrlQuery.lookup q name = some (.strs l) ∧ l ≠ [] ∧
      (∀ s ∈ l, s ≠ "") ∧ rep = true) := by
  have h2 : (match UrlQuery.lookup q name with
    | none => opt
    | some (QVal.str "") => opt
    | some v => kindOk rep v) = true := h
  split at h2
  · exact .inl ⟨by assumption, h2⟩
  · exact .inr (.inl ⟨by assumption, h2⟩)
  · rename_i v hvne hlook
    rcases v with s | l
    · have hs : s ≠ "" := by
        intro he
        subst he
        exact hvne rfl
      have hrep : rep = false := by
        have h3 : (!rep && !(s = "")) = true := h2
        simp only [Bool.and_eq_true, Bool.not_eq_true'] at h3
        exact h3.1
      exact .inr (.inr (.inl ⟨s, hlook, hs, hrep⟩))
    · have h3 : (rep && !l.isEmpty && l.all (fun s => !(s = ""))) = true := h2
      simp only [Bool.and_eq_true, List.all_eq_true, Bool.not_eq_true',
        decide_eq_false_iff_not] at h3
      refine .inr (.inr (.inr ⟨l, hlook, ?_, ?_, h3.1.1⟩))
      · intro he
        subst he
        simp at h3
      · intro s hs
        have h4 := h3.2 s hs
        simpa using h4

theorem validShape_cons_cons (seg r2 : RouteSeg) (rs2 : List RouteSeg) :
    validShape (seg :: r2 :: rs2) = (plainSeg seg && validShape (r2 :: rs2)) := by
  cases seg <;> rfl

theorem mapM_flatten_cons {f : RouteSeg → Option (List String)} {seg : RouteSeg}
    {rest : List RouteSeg} {contrib : List String} {path : List String}
    (h1 : f seg = some contrib)
    (h2 : (rest.mapM f).map List.flatten = some path) :
    ((seg :: rest).mapM f).map List.flatten = some (contrib ++ path) := by
  obtain ⟨pss, hpss, hflat⟩ := Option.map_eq_some'.mp h2
  rw [List.mapM_cons, h1, hpss]
  show some (List.flatten (contrib :: pss)) = some (contrib ++ path)
  rw [List.flatten_cons, hflat]

theorem urlQuery_lookup_cons_self {m : UrlQuery} {name : String} {v : QVal} :
    UrlQuery.lookup ((name, v) :: m) name = some v := by
  unfold UrlQuery.lookup
  rw [List.lookup_cons]
  simp

theorem urlQuery_lookup_cons_ne {m : UrlQuery} {name p : String} {v : QVal}
    (h : p ≠ name) :
    UrlQuery.lookup ((name, v) :: m) p = UrlQuery.lookup m p := by
  unfold UrlQuery.lookup
  rw [List.lookup_cons]
  have hb : (p == name) = false := by simpa using h
  rw [hb]

theorem roundtrip_aux (segs : List RouteSeg) (q : UrlQuery)
    (hshape : validShape segs = true)
    (hnd : (routeParams segs).Nodup)
    (hsup : ∀ seg ∈ segs, suppliedOk q seg = true) :
    ∃ path m,
      (interpolateAs segs q).result = some path ∧
      routeMatch segs path = some m ∧
      (∀ p v, UrlQuery.lookup m p = some v → p ∈ routeParams segs) ∧
      (∀ name rep, RouteSeg.param name rep false ∈ segs →
        UrlQuery.lookup m name = UrlQuery.lookup q name) := by
  induction segs with
  | nil =>
    refine ⟨[], [], rfl, rfl, ?_, by simp⟩
    intro p v hv
    simp [UrlQuery.lookup] at hv
  | cons seg rest ih =>
    have hsup_rest : ∀ s ∈ rest, suppliedOk q s = true := by
      intro s hs
      exact hsup s (by simp [hs])
    cases seg with
    | static s =>
      have hshape_rest : validShape rest = true := by
        cases rest with
        | nil => rfl
        | cons r2 rs2 =>
          rw [validShape_cons_cons] at hshape
          exact (Bool.and_eq_true _ _ |>.mp hshape).2
      have hnd_rest : (routeParams rest).Nodup := hnd
      obtain ⟨path, m, h1, h2, h3, h4⟩ := ih hshape_rest hnd_rest hsup_rest
      refine ⟨s :: path, m, ?_, ?_, h3, ?_⟩
      · exact @mapM_flatten_cons (segSubst q) (.static s) rest [s] path rfl
          (show (rest.mapM (segSubst q)).map List.flatten = some path from h1)
      · show (if s = s then routeMatch rest path else none) = some m
        rw [if_pos rfl]
        exact h2
      · intro name rep hmem
        rcases List.mem_cons.mp hmem with h | h
        · exact absurd h (by simp)
        · exact h4 name rep h
    | param name rep opt =>
      have hsup_head : suppliedOk q (.param name rep opt) = true :=
        hsup _ (by simp)
      have hnd_head : name ∉ routeParams rest ∧ (routeParams rest).Nodup := by
        have h2 : (name :: routeParams rest).Nodup := hnd
        exact ⟨(List.nodup_cons.mp h2).1, (List.nodup_cons.mp h2).2⟩
      rcases suppliedOk_param hsup_head with
        ⟨hlook, hopt⟩ | ⟨hlook, hopt⟩ |
        ⟨sv, hlook, hsv, hrep⟩ | ⟨l2, hlook, hl2ne, hl2s, hrep⟩
      -- 1: value absent, optional catch-all matches nothing
      · subst hopt
        have hrest : rest = [] := by
          cases rest with
          | nil => rfl
          | cons r2 rs2 =>
            rw [validShape_cons_cons] at hshape
            have h3 := (Bool.and_eq_true _ _ |>.mp hshape).1
            simp [plainSeg] at h3
        subst hrest
        have hreptrue : rep = true := by
          have h2 : (rep || !true) = true := hshape
          simpa using h2
        subst hreptrue
        have hcontrib : segSubst q (.param name true true) = some [] := by
          simp only [segSubst, hlook]
          rfl
        refine ⟨[], [], mapM_flatten_cons hcontrib rfl, rfl, ?_, ?_⟩
        · intro p v hv
          simp [UrlQuery.lookup] at hv
        · intro name2 rep2 hmem
          rcases List.mem_cons.mp hmem with h | h
          · injection h with e1 e2 e3
            exact absurd e3.symm (by simp)
          · simp at h
      -- 2: value is the falsy empty string, optional catch-all matches nothing
      · subst hopt
        have hrest : rest = [] := by
          cases rest with
          | nil => rfl
          | cons r2 rs2 =>
            rw [validShape_cons_cons] at hshape
            have h3 := (Bool.and_eq_true _ _ |>.mp hshape).1
            simp [plainSeg] at h3
        subst hrest
        have hreptrue : rep = true := by
          have h2 : (rep || !true) = true := hshape
          simpa using h2
        subst hreptrue
        have hcontrib : segSubst q (.param name true true) = some [] := by
          simp only [segSubst, hlook]
          rfl
        refine ⟨[], [], mapM_flatten_cons hcontrib rfl, rfl, ?_, ?_⟩
        · intro p v hv
          simp [UrlQuery.lookup] at hv
        · intro name2 rep2 hmem
          rcases List.mem_cons.mp hmem with h | h
          · injection h with e1 e2 e3
            exact absurd e3.symm (by simp)
          · simp at h
      -- 3: a plain placeholder with a nonempty string value
      · subst hrep
        have hopt : opt = false := by
          cases rest with
          | nil =>
            have h2 : (false || !opt) = true := hshape
            simpa using h2
          | cons r2 rs2 =>
            rw [validShape_cons_cons] at hshape
            have h3 := (Bool.and_eq_true _ _ |>.mp hshape).1
            simp only [plainSeg, Bool.not_false, Bool.true_and,
              Bool.not_eq_true'] at h3
            exact h3
        subst hopt
        have hshape_rest : validShape rest = true := by
          cases rest with
          | nil => rfl
          | cons r2 rs2 =>
            rw [validShape_cons_cons] at hshape
            exact (Bool.and_eq_true _ _ |>.mp hshape).2
        obtain ⟨path, m, h1, h2, h3, h4⟩ := ih hshape_rest hnd_head.2 hsup_rest
        have hcontrib : segSubst q (.param name false false) =
            some [encodeURIComponent sv] := by
          simp only [segSubst, hlook]
          rfl
        refine ⟨encodeURIComponent sv :: path, (name, .str sv) :: m,
          mapM_flatten_cons hcontrib h1, ?_, ?_, ?_⟩
        · show (if encodeURIComponent sv ≠ "" then
              (routeMatch rest path).map
                ((name, QVal.str (decodeURIComponent (encodeURIComponent sv))) :: ·)
            else none) = some ((name, QVal.str sv) :: m)
          rw [if_pos (encodeURIComponent_ne_empty hsv), h2,
            decodeURIComponent_encodeURIComponent]
          rfl
        · intro p v hv
          show p ∈ name :: routeParams rest
          by_cases hp : p = name
          · simp [hp]
          · rw [urlQuery_lookup_cons_ne hp] at hv
            simp [h3 p v hv]
        · intro name2 rep2 hmem
          rcases List.mem_cons.mp hmem with h | h
          · have hn : name2 = name := by
              injection h with e1 e2 e3
            subst hn
            rw [urlQuery_lookup_cons_self, hlook]
          · have hne2 : name2 ≠ name := by
              intro he
              apply hnd_head.1
              rw [← he]
              exact List.mem_filterMap.mpr ⟨_, h, rfl⟩
            rw [urlQuery_lookup_cons_ne hne2]
            exact h4 name2 rep2 h
      -- 4: a catch-all with a nonempty list value
      · subst hrep
        have hrest : rest = [] := by
          cases rest with
          | nil => rfl
          | cons r2 rs2 =>
            rw [validShape_cons_cons] at hshape
            have h3 := (Bool.and_eq_true _ _ |>.mp hshape).1
            simp [plainSeg] at h3
        subst hrest
        obtain ⟨x, xs, rfl⟩ : ∃ x xs, l2 = x :: xs := by
          cases l2 with
          | nil => exact absurd rfl hl2ne
          | cons x xs => exact ⟨x, xs, rfl⟩
        have hcontrib : segSubst q (.param name true opt) =
            some ((x :: xs).map encodeURIComponent) := by
          simp only [segSubst, hlook]
          cases opt <;> rfl
        have hencs_ne : (x :: xs).map encodeURIComponent ≠ [] := by simp
        have hencs_s : ∀ s ∈ (x :: xs).map encodeURIComponent, s ≠ "" := by
          intro s hs
          obtain ⟨y, hy, rfl⟩ := List.mem_map.mp hs
          exact encodeURIComponent_ne_empty (hl2s y hy)
        have hdec : ((x :: xs).map encodeURIComponent).map decodeURIComponent =
            x :: xs := by
          rw [List.map_map]
          have he : ∀ y ∈ x :: xs,
              (decodeURIComponent ∘ encodeURIComponent) y = id y := by
            intro y hy
            exact decodeURIComponent_encodeURIComponent y
          rw [List.map_congr_left he, List.map_id]
        refine ⟨(x :: xs).map encodeURIComponent, [(name, .strs (x :: xs))],
          ?_, ?_, ?_, ?_⟩
        · have h1 := @mapM_flatten_cons (segSubst q) (.param name true opt) []
            ((x :: xs).map encodeURIComponent) [] hcontrib rfl
          rw [List.append_nil] at h1
          exact h1
        · rw [routeMatch_catchall name opt _ hencs_ne hencs_s, hdec]
        · intro p v hv
          show p ∈ name :: routeParams []
          by_cases hp : p = name
          · simp [hp]
          · rw [urlQuery_lookup_cons_ne hp] at hv
            simp [UrlQuery.lookup] at hv
        · intro name2 rep2 hmem
          rcases List.mem_cons.mp hmem with h | h
          · have hn : name2 = name := by
              injection h with e1 e2 e3
            subst hn
            rw [urlQuery_lookup_cons_self, hlook]
          · simp at h

/-! ## Data-fetch cache helper lemmas -/

theorem lookup_none_not_mem {l : List (String × Nat)} {k : String}
    (h : List.lookup k l = none) : k ∉ l.map Prod.fst := by
  induction l with
  | nil => simp
  | cons e rest ih =>
    rcases e with ⟨k2, v2⟩
    rw [List.lookup_cons] at h
    by_cases hk : k = k2
    · subst hk
      simp at h
    · have hb : (k == k2) = false := by simpa using hk
      rw [hb] at h
      simp only [List.map_cons, List.mem_cons]
      intro hmem
      rcases hmem with h2 | h2
      · exact hk h2
      · exact ih h h2

theorem fetchNextData_hit {c : DataCache} {k : String} {p : Nat}
    (h : c.lookup k = some p) (persist : Bool) :
    fetchNextData c k false persist = (c, p) := by
  unfold fetchNextData
  rw [h]
  rfl

theorem fetchNextDataCalls_hit {c : DataCache} {k : String} {p : Nat}
    (h : c.lookup k = some p) (n : Nat) :
    fetchNextDataCalls c k n = (c, List.replicate n p) := by
  induction n with
  | zero => rfl
  | succ n ih =>
    simp only [fetchNextDataCalls]
    rw [fetchNextData_hit h true]
    simp [ih, List.replicate_succ]

theorem fetchNextData_miss {c : DataCache} {k : String}
    (h : c.lookup k = none) :
    fetchNextData c k false true =
      ({ entries := (k, c.nextProm) :: c.entries, nextProm := c.nextProm + 1,
         issued := c.nextProm :: c.issued }, c.nextProm) := by
  unfold fetchNextData
  rw [h]
  rfl

theorem fetchNextDataCalls_spec (c : DataCache) (k : String) (n : Nat)
    (hwf : c.wf) (hn : 1 ≤ n) :
    (fetchNextDataCalls c k n).1.wf ∧
    (fetchNextDataCalls c k n).1.issued.length ≤ c.issued.length + 1 ∧
    ∃ p, (fetchNextDataCalls c k n).2 = List.replicate n p := by
  rcases hl : c.lookup k with _ | p
  · obtain ⟨m, rfl⟩ : ∃ m, n = m + 1 := ⟨n - 1, by omega⟩
    simp only [fetchNextDataCalls]
    rw [fetchNextData_miss hl]
    have hwf2 : (DataCache.mk ((k, c.nextProm) :: c.entries) (c.nextProm + 1)
        (c.nextProm :: c.issued)).wf := by
      unfold DataCache.wf at hwf ⊢
      simp only [List.map_cons, List.nodup_cons]
      exact ⟨lookup_none_not_mem hl, hwf⟩
    have hl2 : (DataCache.mk ((k, c.nextProm) :: c.entries) (c.nextProm + 1)
        (c.nextProm :: c.issued)).lookup k = some c.nextProm := by
      unfold DataCache.lookup
      rw [List.lookup_cons]
      simp
    rw [fetchNextDataCalls_hit hl2 m]
    refine ⟨hwf2, by simp, c.nextProm, ?_⟩
    simp [List.replicate_succ]
  · rw [fetchNextDataCalls_hit hl n]
    exact ⟨hwf, by simp, p, rfl⟩

theorem skipCacheResolve_lookup (c : DataCache) (k : String) (p : Nat) :
    (skipCacheResolve c k p).lookup k = some p := by
  unfold skipCacheResolve DataCache.lookup
  rw [List.lookup_cons]
  simp

/-! ## Claim C1 -/

/-- C1: if navigation B starts (superseding A's cancellation token) while
navigation A is still awaiting its data/component operations, then when A's
operation completes, its `handleCancelled` check raises the `cancelled`
failure, and A's resumption leaves the engine — router state, per-route
cache, history — exactly as it was and resolves `false` instead of
surfacing an error, for every commit A would otherwise have applied. -/
theorem C1_superseded_navigation_is_inert (e : EngineInstance)
    (commitA : EngineInstance → EngineInstance) :
    handleCancelled
      { e with cancel := (acquireToken (supersede (acquireToken e.cancel).1)).1 }.cancel
      (acquireToken e.cancel).2 = .error () ∧
    resumeNavigation
      { e with cancel := (acquireToken (supersede (acquireToken e.cancel).1)).1 }
      (acquireToken e.cancel).2 commitA =
      ({ e with cancel := (acquireToken (supersede (acquireToken e.cancel).1)).1 },
        false) := by
  have herr : handleCancelled
      { e with cancel := (acquireToken (supersede (acquireToken e.cancel).1)).1 }.cancel
      (acquireToken e.cancel).2 = .error () := by
    simp [acquireToken, supersede, handleCancelled]
  refine ⟨herr, ?_⟩
  unfold resumeNavigation
  rw [herr]

/-! ## Claim C7 -/

theorem fetchRetry_count_le (oracle : Nat → FetchResponse) :
    ∀ attempts k, 1 ≤ attempts → (fetchRetry oracle k attempts).2 ≤ attempts := by
  intro attempts
  induction attempts with
  | zero => omega
  | succ a ih =>
    intro k h1
    rw [fetchRetry]
    split
    · rename_i hcond
      simp only [Bool.and_eq_true, decide_eq_true_eq] at hcond
      have ha : 1 ≤ a := by omega
      have h2 := ih (k + 1) ha
      simpa using h2
    · simp

theorem fetchRetry_no_retry {oracle : Nat → FetchResponse} {k : Nat}
    (h : (oracle k).status < 500) (attempts : Nat) :
    fetchRetry oracle k attempts = (oracle k, 1) := by
  rw [fetchRetry]
  split
  · rename_i hcond
    simp only [Bool.and_eq_true, decide_eq_true_eq] at hcond
    omega
  · rfl

theorem fetchRetry_all_503 {oracle : Nat → FetchResponse}
    (h503 : ∀ j, (oracle j).status = 503) :
    ∀ attempts k, 1 ≤ attempts → (fetchRetry oracle k attempts).2 = attempts := by
  intro attempts
  induction attempts with
  | zero => omega
  | succ a ih =>
    intro k h1
    rw [fetchRetry]
    have hok : (oracle k).ok = false := by
      simp [FetchResponse.ok, h503 k]
    rcases Nat.eq_or_lt_of_le h1 with h2 | h2
    · -- exactly one attempt left: no retry is possible
      have ha : a = 0 := by omega
      subst ha
      split
      · rename_i hcond
        simp only [Bool.and_eq_true, decide_eq_true_eq] at hcond
        omega
      · rfl
    · have ha : 1 ≤ a := by omega
      have hcond : (!(oracle k).ok && decide (a + 1 > 1) &&
          decide ((oracle k).status ≥ 500)) = true := by
        simp [hok, h503 k]
        omega
      rw [dif_pos hcond]
      simp only [Nat.add_sub_cancel]
      rw [ih (k + 1) ha]

/-- C7: `fetchRetry` issues at most the configured number of attempts and
retries only on a non-ok response with status at least 500 while attempts
remain; every response with status below 500 (in particular 404) is
returned as-is after a single request, and when the server keeps answering
503 the full attempt budget is used. -/
theorem C7_fetchRetry_attempts (oracle : Nat → FetchResponse)
    (k attempts : Nat) (hatt : 1 ≤ attempts) :
    ((fetchRetry oracle k attempts).2 ≤ attempts) ∧
    ((oracle k).status < 500 → fetchRetry oracle k attempts = (oracle k, 1)) ∧
    ((∀ j, (oracle j).status = 503) →
      (fetchRetry oracle k attempts).2 = attempts) := by
  refine ⟨fetchRetry_count_le oracle attempts k hatt, ?_, ?_⟩
  · intro h
    exact fetchRetry_no_retry h attempts
  · intro h503
    exact fetchRetry_all_503 h503 attempts k hatt

/-- Witness for C7 at a concrete input: three attempts, a server always
answering 503. -/
theorem C7_fetchRetry_attempts_witness :
    1 ≤ 3 ∧
    ((fetchRetry (fun (_ : Nat) => FetchResponse.mk 503) 0 3).2 ≤ 3 ∧
     (((fun (_ : Nat) => FetchResponse.mk 503) (0 : Nat)).status < 500 →
       fetchRetry (fun (_ : Nat) => FetchResponse.mk 503) 0 3 =
         ((fun (_ : Nat) => FetchResponse.mk 503) (0 : Nat), 1)) ∧
     ((∀ j, ((fun (_ : Nat) => FetchResponse.mk 503) j).status = 503) →
       (fetchRetry (fun (_ : Nat) => FetchResponse.mk 503) 0 3).2 = 3)) :=
  ⟨by decide, C7_fetchRetry_attempts (fun (_ : Nat) => FetchResponse.mk 503) 0 3 (by decide)⟩

/-! ## Claim C2 -/

/-- Counterexample to C2 as stated: with cache persistence disabled (the
preview-mode case, `persistCache = !isPreview`, line 1935) a caller that
explicitly requests bypassing the shared cache does NOT get a fresh
request — the guard at line 753 requires `unstable_skipClientCache &&
persistCache`, so the call falls through to the normal path and the
existing in-flight promise is returned with no new request issued. -/
theorem C2_counterexample :
    fetchNextData (DataCache.mk [("k", 0)] 1 [0]) "k" true false =
      (DataCache.mk [("k", 0)] 1 [0], 0) := by
  rfl

/-- C2 (amended): for every data URL, N sequential callers (the
suspension-point interleaving of N concurrent callers) calling
`fetchNextData` without a cache bypass issue at most one request in total
and all receive the same promise, and the cache keeps at most one entry
per key; and when a caller requests bypassing the shared cache WITH cache
persistence enabled, a fresh request is issued, the shared entries are
untouched at call time, and the shared entry is replaced (only) by the
success continuation. -/
theorem C2_fetchNextData_cache (c : DataCache) (k : String) (n : Nat)
    (hwf : c.wf) (hn : 1 ≤ n) :
    ((fetchNextDataCalls c k n).1.wf ∧
     (fetchNextDataCalls c k n).1.issued.length ≤ c.issued.length + 1 ∧
     ∃ p, (fetchNextDataCalls c k n).2 = List.replicate n p) ∧
    ((fetchNextData c k true true).1.entries = c.entries ∧
     (fetchNextData c k true true).1.issued = c.nextProm :: c.issued ∧
     (fetchNextData c k true true).2 = c.nextProm ∧
     ∀ p, (skipCacheResolve (fetchNextData c k true true).1 k p).lookup k =
       some p) := by
  refine ⟨fetchNextDataCalls_spec c k n hwf hn, rfl, rfl, rfl, ?_⟩
  intro p
  exact skipCacheResolve_lookup _ k p

/-- Witness for C2 at a concrete input: an empty well-formed cache, two
callers. -/
theorem C2_fetchNextData_cache_witness :
    (DataCache.mk [] 0 []).wf ∧ 1 ≤ 2 ∧
    (((fetchNextDataCalls (DataCache.mk [] 0 []) "k" 2).1.wf ∧
      (fetchNextDataCalls (DataCache.mk [] 0 []) "k" 2).1.issued.length ≤
        (DataCache.mk [] 0 []).issued.length + 1 ∧
      ∃ p, (fetchNextDataCalls (DataCache.mk [] 0 []) "k" 2).2 =
        List.replicate 2 p) ∧
     ((fetchNextData (DataCache.mk [] 0 []) "k" true true).1.entries =
        (DataCache.mk [] 0 []).entries ∧
      (fetchNextData (DataCache.mk [] 0 []) "k" true true).1.issued =
        (DataCache.mk [] 0 []).nextProm :: (DataCache.mk [] 0 []).issued ∧
      (fetchNextData (DataCache.mk [] 0 []) "k" true true).2 =
        (DataCache.mk [] 0 []).nextProm ∧
      ∀ p, (skipCacheResolve
        (fetchNextData (DataCache.mk [] 0 []) "k" true true).1 "k" p).lookup "k" =
          some p)) := by
  refine ⟨by simp [DataCache.wf], by decide, ?_⟩
  exact C2_fetchNextData_cache (DataCache.mk [] 0 []) "k" 2
    (by simp [DataCache.wf]) (by decide)

/-! ## Claim C3 -/

/-- C3: in `getMiddlewareData`, a (possibly inferred) rewrite target takes
priority over the redirect header — the result does not depend on the
redirect header at all; with no rewrite target, a redirect header whose
status is one of 301, 302, 307, 308 and whose target starts with `/`
yields `redirect-internal`, any other truthy redirect target yields
`redirect-external`; with neither header, the effect is `next`.  (The
source never reads the response status in this decision; the status
hypothesis of the claim is carried but not needed.) -/
theorem C3_middleware_effect_priority (h : MWHeaders) (status : Nat)
    (hstatus : status ∈ [301, 302, 307, 308]) :
    (jsTruthyS (mwRewriteTarget h) = true →
      (∀ r, getMiddlewareDataTag { h with xNextjsRedirect := r } =
        getMiddlewareDataTag { h with xNextjsRedirect := none }) ∧
      (((mwRewriteTarget h).getD "").startsWith "/" = true →
        getMiddlewareDataTag h = .rewrite) ∧
      (((mwRewriteTarget h).getD "").startsWith "/" = false →
        getMiddlewareDataTag h = .redirectExternal)) ∧
    (jsTruthyS (mwRewriteTarget h) = false →
      (∀ t, h.xNextjsRedirect = some t → t.startsWith "/" = true →
        getMiddlewareDataTag h = .redirectInternal) ∧
      (∀ t, h.xNextjsRedirect = some t → t ≠ "" → t.startsWith "/" = false →
        getMiddlewareDataTag h = .redirectExternal) ∧
      (jsTruthyS h.xNextjsRedirect = false →
        getMiddlewareDataTag h = .next)) := by
  constructor
  · intro htruthy
    have hrw : ∀ r, mwRewriteTarget { h with xNextjsRedirect := r } =
        mwRewriteTarget h := by
      intro r
      rfl
    refine ⟨?_, ?_, ?_⟩
    · intro r
      show (let rewriteTarget := mwRewriteTarget { h with xNextjsRedirect := r }
            if jsTruthyS rewriteTarget then
              if (rewriteTarget.getD "").startsWith "/" then MWEffectTag.rewrite
              else .redirectExternal
            else _) = _
      rw [hrw r]
      show (if jsTruthyS (mwRewriteTarget h) then _ else _) = _
      rw [if_pos htruthy]
      show _ = (if jsTruthyS (mwRewriteTarget { h with xNextjsRedirect := none })
        then _ else _)
      rw [hrw none, if_pos htruthy]
    · intro hstart
      unfold getMiddlewareDataTag
      rw [if_pos htruthy, if_pos hstart]
    · intro hstart
      unfold getMiddlewareDataTag
      rw [if_pos htruthy]
      simp [hstart]
  · intro hfalse
    refine ⟨?_, ?_, ?_⟩
    · intro t ht hstart
      unfold getMiddlewareDataTag
      rw [if_neg (by simp [hfalse]), ht]
      have htr : jsTruthyS (some t) = true := by
        simp only [jsTruthyS, decide_eq_true_eq]
        intro he
        subst he
        exact absurd hstart (by decide)
      rw [if_pos htr]
      simp [hstart]
    · intro t ht htne hstart
      unfold getMiddlewareDataTag
      rw [if_neg (by simp [hfalse]), ht]
      have htr : jsTruthyS (some t) = true := by
        simp only [jsTruthyS, decide_eq_true_eq]
        exact htne
      rw [if_pos htr]
      simp [hstart]
    · intro hrt
      unfold getMiddlewareDataTag
      rw [if_neg (by simp [hfalse]), if_neg (by simp [hrt])]

/-- Witness for C3 at a concrete input: a rewrite header `/real` together
with a redirect header, status 307. -/
theorem C3_middleware_effect_priority_witness :
    (307 ∈ [301, 302, 307, 308]) ∧
    ((jsTruthyS (mwRewriteTarget (MWHeaders.mk (some "/real") none none (some "/rd"))) = true →
      (∀ r, getMiddlewareDataTag { MWHeaders.mk (some "/real") none none (some "/rd") with xNextjsRedirect := r } =
        getMiddlewareDataTag { MWHeaders.mk (some "/real") none none (some "/rd") with xNextjsRedirect := none }) ∧
      (((mwRewriteTarget (MWHeaders.mk (some "/real") none none (some "/rd"))).getD "").startsWith "/" = true →
        getMiddlewareDataTag (MWHeaders.mk (some "/real") none none (some "/rd")) = .rewrite) ∧
      (((mwRewriteTarget (MWHeaders.mk (some "/real") none none (some "/rd"))).getD "").startsWith "/" = false →
        getMiddlewareDataTag (MWHeaders.mk (some "/real") none none (some "/rd")) = .redirectExternal)) ∧
    (jsTruthyS (mwRewriteTarget (MWHeaders.mk (some "/real") none none (some "/rd"))) = false →
      (∀ t, (MWHeaders.mk (some "/real") none none (some "/rd")).xNextjsRedirect = some t → t.startsWith "/" = true →
        getMiddlewareDataTag (MWHeaders.mk (some "/real") none none (some "/rd")) = .redirectInternal) ∧
      (∀ t, (MWHeaders.mk (some "/real") none none (some "/rd")).xNextjsRedirect = some t → t ≠ "" → t.startsWith "/" = false →
        getMiddlewareDataTag (MWHeaders.mk (some "/real") none none (some "/rd")) = .redirectExternal) ∧
      (jsTruthyS (MWHeaders.mk (some "/real") none none (some "/rd")).xNextjsRedirect = false →
        getMiddlewareDataTag (MWHeaders.mk (some "/real") none none (some "/rd")) = .next))) :=
  ⟨by decide, C3_middleware_effect_priority
    (MWHeaders.mk (some "/real") none none (some "/rd")) 307 (by decide)⟩

/-! ## Claim C4 -/

/-- C4: a data fetch answered with HTTP 404 whose body parses with a truthy
`notFound` member, in a navigation without middleware involvement, does not
throw — it resolves with the not-found marker; and the engine then resolves
the not-found view `/404`, falling back to `/_error` when loading `/404`
fails. -/
theorem C4_notfound_marker (parse : String → Option JsonVal)
    (dataHref text : String) (resp : DataResponse)
    (isServerRender parseJSON isHead : Bool)
    (hstatus : resp.status = 404)
    (hnf : parsedNotFound (parse text) = true) :
    processDataResponse parse false isServerRender parseJSON isHead dataHref
      resp text = .ok ⟨dataHref, .notFoundMarker, text⟩ ∧
    notFoundRouteFor true = "/404" ∧
    notFoundRouteFor false = "/_error" := by
  refine ⟨?_, rfl, rfl⟩
  have hok : resp.ok = false := by
    simp [DataResponse.ok, hstatus]
  unfold processDataResponse
  rw [hok, hstatus]
  simp [hnf]

/-- Witness for C4 at a concrete input: a 404 response whose body parses to
an object with `notFound: true`. -/
theorem C4_notfound_marker_witness :
    (DataResponse.mk 404 []).status = 404 ∧
    parsedNotFound ((fun (_ : String) =>
      some (JsonVal.jobj [("notFound", JsonVal.jbool true)])) "body") = true ∧
    processDataResponse
      (fun (_ : String) => some (JsonVal.jobj [("notFound", JsonVal.jbool true)]))
      false false true false "/_next/data/x.json" (DataResponse.mk 404 [])
      "body" = .ok ⟨"/_next/data/x.json", .notFoundMarker, "body"⟩ ∧
    notFoundRouteFor true = "/404" ∧
    notFoundRouteFor false = "/_error" := by
  refine ⟨rfl, rfl, ?_⟩
  exact (C4_notfound_marker
    (fun (_ : String) => some (JsonVal.jobj [("notFound", JsonVal.jbool true)]))
    "/_next/data/x.json" "body" (DataResponse.mk 404 []) false true false
    rfl rfl).imp id (fun h => h)

/-! ## Claim C5 -/

/-- Counterexample to C5 as stated: a history entry LACKING the engine
marker (`__N: false`, line 1050) does not trigger a full reload — it is
simply ignored (`return` without any action), unlike an entry carrying the
foreign `__NA` marker, which does reload.  The claim asserts a full reload
for both. -/
theorem C5_counterexample :
    onPopStateAction .notOurs false none "" false true = .ignore ∧
    onPopStateAction .notOurs false none "" false true ≠ .reload := by
  constructor
  · rfl
  · decide

/-- C5 (amended): every history entry written by `changeState` carries the
engine marker `__N: true` and a key — a fresh random key for `pushState`,
the current key reused for `replaceState`; on an externally-triggered
history event, an entry with the foreign app-router marker triggers a full
reload, and an entry lacking the engine marker is ignored outright; in
neither case is the entry processed as a client navigation. -/
theorem C5_history_marker_and_key (method : HistoryMethod)
    (url asStr : String) (options : TransOptions) (curKey freshKey : String)
    (h : BrowserHistory) (hfirst : Bool) (curLocale : Option String)
    (curAsPath : String) (echo bps : Bool) :
    ((method = .pushState → h.url ≠ asStr →
       changeState method url asStr options curKey freshKey h =
         (⟨h.stack ++ [.entry url asStr options freshKey], asStr⟩, freshKey)) ∧
     (method = .replaceState →
       changeState method url asStr options curKey freshKey h =
         (⟨h.stack.dropLast ++ [.entry url asStr options curKey], asStr⟩,
           curKey))) ∧
    (onPopStateAction .appRouterEntry hfirst curLocale curAsPath echo bps =
       .reload ∧
     onPopStateAction .notOurs hfirst curLocale curAsPath echo bps =
       .ignore) := by
  refine ⟨⟨?_, ?_⟩, rfl, rfl⟩
  · intro hm hurl
    subst hm
    unfold changeState
    rw [if_neg (by simp [hurl])]
  · intro hm
    subst hm
    unfold changeState
    rw [if_neg (by simp)]

/-- Witness for C5 at a concrete input: a push to a new URL and a replace,
from a one-entry history. -/
theorem C5_history_marker_and_key_witness :
    ((HistoryMethod.pushState = .pushState →
        (BrowserHistory.mk [.entry "/" "/" {} "k0"] "/").url ≠ "/a" →
        changeState .pushState "/a" "/a" {} "k0" "k1"
          (BrowserHistory.mk [.entry "/" "/" {} "k0"] "/") =
          (⟨[.entry "/" "/" {} "k0"] ++ [.entry "/a" "/a" {} "k1"], "/a"⟩,
            "k1")) ∧
     (HistoryMethod.pushState = .replaceState →
        changeState .pushState "/a" "/a" {} "k0" "k1"
          (BrowserHistory.mk [.entry "/" "/" {} "k0"] "/") =
          (⟨[HistoryState.entry "/" "/" {} "k0"].dropLast ++
            [.entry "/a" "/a" {} "k0"], "/a"⟩, "k0"))) ∧
    (onPopStateAction .appRouterEntry false none "/" false true = .reload ∧
     onPopStateAction .notOurs false none "/" false true = .ignore) :=
  C5_history_marker_and_key .pushState "/a" "/a" {} "k0" "k1"
    (BrowserHistory.mk [.entry "/" "/" {} "k0"] "/") false none "/" false true

/-! ## Claim C6 -/

/-- C6: a background query-sync transition (`_h` set) whose computed
upcoming router state equals the current one, with no scroll instruction,
no ready-state transition and no locale change, skips the subscriber
publish step entirely while the router state still equals the new
snapshot afterwards. -/
theorem C6_skip_publish (r : RouterInstance) (nextState : RouterState)
    (route pathname : String) (query : UrlQuery) (cleanedAs : String)
    (isValidShallowRoute : Bool)
    (hcompare : compareRouterStates
      { nextState with
        route := route
        pathname := pathname
        query := query
        asPath := cleanedAs
        isFallback := false } r.state = true) :
    commitStep r nextState route pathname query cleanedAs true false false
      isValidShallowRoute none none = (r, false) ∧
    (commitStep r nextState route pathname query cleanedAs true false false
      isValidShallowRoute none none).1.state =
      { nextState with
        route := route
        pathname := pathname
        query := query
        asPath := cleanedAs
        isFallback := false } := by
  have hskip : commitStep r nextState route pathname query cleanedAs true false
      false isValidShallowRoute none none = (r, false) := by
    unfold commitStep
    simp [hcompare]
  refine ⟨hskip, ?_⟩
  rw [hskip]
  have heq := of_decide_eq_true hcompare
  exact heq.symm

/-- Witness for C6 at a concrete input: a query-sync where the upcoming
state coincides with the current one. -/
theorem C6_skip_publish_witness :
    compareRouterStates
      { RouterState.mk "/a" "/a" [] "/a" none false false with
        route := "/a"
        pathname := "/a"
        query := []
        asPath := "/a"
        isFallback := false }
      (RouterInstance.mk (RouterState.mk "/a" "/a" [] "/a" none false false)).state
      = true ∧
    (commitStep (RouterInstance.mk (RouterState.mk "/a" "/a" [] "/a" none false false))
      (RouterState.mk "/a" "/a" [] "/a" none false false) "/a" "/a" [] "/a"
      true false false false none none =
      (RouterInstance.mk (RouterState.mk "/a" "/a" [] "/a" none false false), false) ∧
     (commitStep (RouterInstance.mk (RouterState.mk "/a" "/a" [] "/a" none false false))
      (RouterState.mk "/a" "/a" [] "/a" none false false) "/a" "/a" [] "/a"
      true false false false none none).1.state =
      { RouterState.mk "/a" "/a" [] "/a" none false false with
        route := "/a"
        pathname := "/a"
        query := []
        asPath := "/a"
        isFallback := false }) :=
  ⟨by decide, C6_skip_publish
    (RouterInstance.mk (RouterState.mk "/a" "/a" [] "/a" none false false))
    (RouterState.mk "/a" "/a" [] "/a" none false false) "/a" "/a" [] "/a" false
    (by decide)⟩

/-! ## Claim C10 -/

/-- C10: a push navigation whose cleaned target equals the current `asPath`
with an unchanged locale is demoted to `replaceState` before committing, so
the history stack gains no entry and the current key is reused; and a
`pushState` whose target equals the current browser URL performs no history
mutation at all. -/
theorem C10_same_url_push_demoted (url cleanedAs curAsPath : String)
    (options : TransOptions) (curKey freshKey : String) (h : BrowserHistory)
    (hsame : cleanedAs = curAsPath) (hstack : h.stack ≠ []) :
    demoteMethod .pushState curAsPath cleanedAs false = .replaceState ∧
    (changeState .replaceState url cleanedAs options curKey freshKey h).1.stack.length
      = h.stack.length ∧
    (changeState .replaceState url cleanedAs options curKey freshKey h).2 =
      curKey ∧
    (∀ asStr, h.url = asStr →
      changeState .pushState url asStr options curKey freshKey h = (h, curKey)) := by
  refine ⟨?_, ?_, ?_, ?_⟩
  · unfold demoteMethod urlIsNew
    rw [if_pos (by simp [hsame])]
  · show ((BrowserHistory.mk
      (h.stack.dropLast ++ [.entry url cleanedAs options curKey]) cleanedAs),
        curKey).1.stack.length = h.stack.length
    simp only [List.length_append, List.length_dropLast, List.length_cons,
      List.length_nil]
    have hpos : 1 ≤ h.stack.length := by
      cases hs : h.stack with
      | nil => exact absurd hs hstack
      | cons a t => simp [hs]
    omega
  · rfl
  · intro asStr hurl
    unfold changeState
    rw [if_pos (by simp [hurl])]

/-- Witness for C10 at a concrete input. -/
theorem C10_same_url_push_demoted_witness :
    "/a" = "/a" ∧ (BrowserHistory.mk [.entry "/" "/" {} "k0"] "/a").stack ≠ [] ∧
    (demoteMethod .pushState "/a" "/a" false = .replaceState ∧
     (changeState .replaceState "/a" "/a" {} "k0" "k1"
       (BrowserHistory.mk [.entry "/" "/" {} "k0"] "/a")).1.stack.length =
       (BrowserHistory.mk [HistoryState.entry "/" "/" {} "k0"] "/a").stack.length ∧
     (changeState .replaceState "/a" "/a" {} "k0" "k1"
       (BrowserHistory.mk [.entry "/" "/" {} "k0"] "/a")).2 = "k0" ∧
     (∀ asStr, (BrowserHistory.mk [HistoryState.entry "/" "/" {} "k0"] "/a").url = asStr →
       changeState .pushState "/a" asStr {} "k0" "k1"
         (BrowserHistory.mk [.entry "/" "/" {} "k0"] "/a") =
         (BrowserHistory.mk [.entry "/" "/" {} "k0"] "/a", "k0"))) :=
  ⟨rfl, by simp, C10_same_url_push_demoted "/a" "/a" "/a" {} "k0" "k1"
    (BrowserHistory.mk [.entry "/" "/" {} "k0"] "/a") rfl (by simp)⟩

/-! ## Claim C8 -/

/-- Counterexample to C8 as stated: for the pathname `/about/` with known
routes `["/about"]`, the cleaned pathname `/about` is an exact known
static route, yet `resolveDynamicRoute` does not return the pathname
unchanged — line 340 strips the trailing slash of the returned value. -/
theorem C8_counterexample :
    resolveDynamicRoute isDynamicRoute getRouteRegexTest denormalizePagePath
      "/about/" ["/about"] = "/about" ∧
    ("/about" : String) ≠ "/about/" := by
  constructor
  · rfl
  · decide

theorem find_first_match {α : Type} (pred : α → Bool) (l1 : List α) (x : α)
    (l2 : List α) (hx : pred x = true) (hearlier : ∀ p ∈ l1, pred p = false) :
    List.find? pred (l1 ++ x :: l2) = some x := by
  rw [List.find?_append]
  have h1 : List.find? pred l1 = none := by
    rw [List.find?_eq_none]
    intro p hp
    simp [hearlier p hp]
  rw [h1, List.find?_cons_of_pos _ hx]
  rfl

/-- C8 (amended): for every pathname and known-routes list (and for every
instantiation of the imported page-path utilities), `resolveDynamicRoute`
returns: the pathname verbatim when the cleaned pathname is `/404` or
`/_error`; the trailing-slash-stripped pathname — identical to the input
whenever the input carries no trailing slash — when the cleaned pathname
is an exact known static route; otherwise the first known route, in listed
order, that is dynamic and whose compiled pattern matches the cleaned
pathname (trailing-slash-stripped), or the trailing-slash-stripped
pathname when none matches. -/
theorem C8_resolveDynamicRoute (isDyn : String → Bool)
    (reTest : String → String → Bool) (denorm : String → String)
    (pathname : String) (pages : List String) :
    ((removeTrailingSlash (denorm pathname) = "/404" ∨
      removeTrailingSlash (denorm pathname) = "/_error") →
      resolveDynamicRoute isDyn reTest denorm pathname pages = pathname) ∧
    (removeTrailingSlash (denorm pathname) ≠ "/404" →
      removeTrailingSlash (denorm pathname) ≠ "/_error" →
      pages.contains (removeTrailingSlash (denorm pathname)) = true →
      resolveDynamicRoute isDyn reTest denorm pathname pages =
        removeTrailingSlash pathname) ∧
    (∀ l1 page l2, removeTrailingSlash (denorm pathname) ≠ "/404" →
      removeTrailingSlash (denorm pathname) ≠ "/_error" →
      pages.contains (removeTrailingSlash (denorm pathname)) = false →
      pages = l1 ++ page :: l2 →
      (isDyn page && reTest page (removeTrailingSlash (denorm pathname))) = true →
      (∀ p ∈ l1,
        (isDyn p && reTest p (removeTrailingSlash (denorm pathname))) = false) →
      resolveDynamicRoute isDyn reTest denorm pathname pages =
        removeTrailingSlash page) ∧
    (removeTrailingSlash (denorm pathname) ≠ "/404" →
      removeTrailingSlash (denorm pathname) ≠ "/_error" →
      pages.contains (removeTrailingSlash (denorm pathname)) = false →
      (∀ p ∈ pages,
        (isDyn p && reTest p (removeTrailingSlash (denorm pathname))) = false) →
      resolveDynamicRoute isDyn reTest denorm pathname pages =
        removeTrailingSlash pathname) := by
  refine ⟨?_, ?_, ?_, ?_⟩
  · intro hsent
    unfold resolveDynamicRoute
    rcases hsent with hs | hs <;> rw [hs] <;> simp
  · intro h404 herr hcont
    unfold resolveDynamicRoute
    rw [if_neg (by simp [h404, herr]), if_pos hcont]
  · intro l1 page l2 h404 herr hcont hsplit hpage hearlier
    unfold resolveDynamicRoute
    rw [if_neg (by simp [h404, herr]), if_neg (by rw [hcont]; simp), hsplit,
      find_first_match _ l1 page l2 hpage hearlier]
  · intro h404 herr hcont hnone
    unfold resolveDynamicRoute
    rw [if_neg (by simp [h404, herr]), if_neg (by rw [hcont]; simp)]
    have hfind : pages.find?
        (fun page => isDyn page &&
          reTest page (removeTrailingSlash (denorm pathname))) = none := by
      rw [List.find?_eq_none]
      intro p hp
      simp [hnone p hp]
    rw [hfind]

/-- Witness for C8 at a concrete input: with known routes
`[/x, /blog/[slug]]` (using the concrete modelled utilities), the pathname
`/blog/hello` is not a known static route and resolves to the first
matching dynamic pattern `/blog/[slug]`. -/
theorem C8_resolveDynamicRoute_witness :
    removeTrailingSlash (denormalizePagePath "/blog/hello") ≠ "/404" ∧
    removeTrailingSlash (denormalizePagePath "/blog/hello") ≠ "/_error" ∧
    (["/x", "/blog/[slug]"].contains
      (removeTrailingSlash (denormalizePagePath "/blog/hello"))) = false ∧
    (["/x", "/blog/[slug]"] : List String) = ["/x"] ++ "/blog/[slug]" :: [] ∧
    (isDynamicRoute "/blog/[slug]" && getRouteRegexTest "/blog/[slug]"
      (removeTrailingSlash (denormalizePagePath "/blog/hello"))) = true ∧
    (∀ p ∈ (["/x"] : List String), (isDynamicRoute p && getRouteRegexTest p
      (removeTrailingSlash (denormalizePagePath "/blog/hello"))) = false) ∧
    resolveDynamicRoute isDynamicRoute getRouteRegexTest denormalizePagePath
      "/blog/hello" ["/x", "/blog/[slug]"] =
      removeTrailingSlash "/blog/[slug]" :=
  ⟨by decide, by decide, by decide, by decide, by decide, by decide,
    (C8_resolveDynamicRoute isDynamicRoute getRouteRegexTest
      denormalizePagePath "/blog/hello" ["/x", "/blog/[slug]"]).2.2.1
      ["/x"] "/blog/[slug]" [] (by decide) (by decide) (by decide) (by decide)
      (by decide) (by decide)⟩

/-! ## Claim C9 -/

theorem interpolateAs_missing (segs : List RouteSeg) (q : UrlQuery)
    (name : String) (rep : Bool)
    (hmem : RouteSeg.param name rep false ∈ segs)
    (hmiss : UrlQuery.lookup q name = none) :
    (interpolateAs segs q).result = none := by
  induction segs with
  | nil => simp at hmem
  | cons seg rest ih =>
    rcases List.mem_cons.mp hmem with h | h
    · have hc : segSubst q (.param name rep false) = none := by
        simp only [segSubst, hmiss]
        rfl
      show ((seg :: rest).mapM (segSubst q)).map List.flatten = none
      rw [← h, List.mapM_cons, hc]
      rfl
    · have h2 := ih h
      show ((seg :: rest).mapM (segSubst q)).map List.flatten = none
      rw [List.mapM_cons]
      have h3 : rest.mapM (segSubst q) = none := by
        rcases hr : rest.mapM (segSubst q) with _ | pss
        · rfl
        · exfalso
          have h4 : (interpolateAs rest q).result = some pss.flatten := by
            show (rest.mapM (segSubst q)).map List.flatten = some pss.flatten
            rw [hr]
            rfl
          rw [h2] at h4
          exact Option.noConfusion h4
      rw [h3]
      cases segSubst q seg <;> rfl

/-- Counterexample to C9 as stated: for the pattern `/blog/[slug]` and the
params map supplying `slug` as the empty string, interpolation succeeds
and yields the path `/blog/` (the placeholder replaced by the encoding of
the empty string, line 201), but matching that result against the
pattern's compiled regex fails — `[^/]+?` requires a nonempty segment — so
no placeholder values are recovered at all. -/
theorem C9_counterexample :
    (interpolateAs [RouteSeg.static "blog", RouteSeg.param "slug" false false]
      [("slug", QVal.str "")]).result = some ["blog", ""] ∧
    routeMatch [RouteSeg.static "blog", RouteSeg.param "slug" false false]
      ["blog", ""] = none := by
  constructor
  · rfl
  · rfl

/-- C9 (amended): for every valid dynamic-route pattern (catch-alls only
in the final segment, optional placeholders only as catch-alls, distinct
placeholder names) and params map supplying a nonempty well-kinded value
for every non-optional placeholder (a nonempty string for a plain
placeholder, a nonempty list of nonempty strings for a catch-all; an
optional placeholder absent, empty, or likewise well-kinded), the
interpolation succeeds, matching its result against the pattern's
compiled regex succeeds, and the match recovers exactly the supplied
values of all non-optional placeholders; and whenever any required
non-optional placeholder is missing from the supplied values, the whole
interpolation fails with the empty result. -/
theorem C9_interpolate_roundtrip (segs : List RouteSeg) (q : UrlQuery)
    (hshape : validShape segs = true)
    (hnd : (routeParams segs).Nodup)
    (hsup : ∀ seg ∈ segs, suppliedOk q seg = true) :
    (∃ path m,
      (interpolateAs segs q).result = some path ∧
      routeMatch segs path = some m ∧
      ∀ name rep, RouteSeg.param name rep false ∈ segs →
        UrlQuery.lookup m name = UrlQuery.lookup q name) ∧
    (∀ (q2 : UrlQuery) name rep, RouteSeg.param name rep false ∈ segs →
      UrlQuery.lookup q2 name = none →
      (interpolateAs segs q2).result = none) := by
  constructor
  · obtain ⟨path, m, h1, h2, h3, h4⟩ := roundtrip_aux segs q hshape hnd hsup
    exact ⟨path, m, h1, h2, h4⟩
  · intro q2 name rep hmem hmiss
    exact interpolateAs_missing segs q2 name rep hmem hmiss

/-- Witness for C9 at a concrete input: the pattern `/blog/[slug]` with
`slug` supplied as the nonempty string `hello`. -/
theorem C9_interpolate_roundtrip_witness :
    validShape [RouteSeg.static "blog", RouteSeg.param "slug" false false] = true ∧
    (routeParams [RouteSeg.static "blog", RouteSeg.param "slug" false false]).Nodup ∧
    (∀ seg ∈ [RouteSeg.static "blog", RouteSeg.param "slug" false false],
      suppliedOk [("slug", QVal.str "hello")] seg = true) ∧
    ((∃ path m,
      (interpolateAs [RouteSeg.static "blog", RouteSeg.param "slug" false false]
        [("slug", QVal.str "hello")]).result = some path ∧
      routeMatch [RouteSeg.static "blog", RouteSeg.param "slug" false false]
        path = some m ∧
      ∀ name rep, RouteSeg.param name rep false ∈
          [RouteSeg.static "blog", RouteSeg.param "slug" false false] →
        UrlQuery.lookup m name =
          UrlQuery.lookup [("slug", QVal.str "hello")] name) ∧
    (∀ (q2 : UrlQuery) name rep, RouteSeg.param name rep false ∈
        [RouteSeg.static "blog", RouteSeg.param "slug" false false] →
      UrlQuery.lookup q2 name = none →
      (interpolateAs [RouteSeg.static "blog", RouteSeg.param "slug" false false]
        q2).result = none)) :=
  ⟨by decide, by decide, by decide,
    C9_interpolate_roundtrip
      [RouteSeg.static "blog", RouteSeg.param "slug" false false]
      [("slug", QVal.str "hello")] (by decide) (by decide) (by decide)⟩
